import Mathlib

/-!
Verification development for the support-chat-ai backend.

The Python sources under `backend/app` are shallowly embedded below:
  * `backend/app/agents/tools/goal_tools.py`     → `track_goal_progress`
  * `backend/app/agents/tools/safety_tools.py`   → `check_safety_constraints`
  * `backend/app/agents/tools/context_tools.py`  → `process_conversation_context`
  * `backend/app/agents/autonomous_agent.py`     → `AutonomousAgentService.process`
  * `backend/app/api/routes/autonomous.py`       → `autonomous_response`

Modelling conventions: Python floats are modelled as exact rationals (every
numeric literal in the sources is an exact decimal), Python ints as `ℤ`,
strings as `String` with all character-level work done on `List Char` by
structural recursion, and Python code paths that raise as `Except`.
-/

namespace SupportChat

/-! ### Decimal rounding

Python `round(x, 2)` rounds to two decimal places with ties going to the even
last digit (banker rounding, at the level of the exact decimal value).
-/

/-- Round a rational to the nearest integer, ties to the even integer
(the tie rule Python `round` uses). -/
def roundHalfEven (x : ℚ) : ℤ :=
  if x - ⌊x⌋ < 1/2 then ⌊x⌋
  else if 1/2 < x - ⌊x⌋ then ⌊x⌋ + 1
  else if ⌊x⌋ % 2 = 0 then ⌊x⌋ else ⌊x⌋ + 1

/-- Python `round(x, 2)`. -/
def round2 (x : ℚ) : ℚ := (roundHalfEven (100 * x) : ℚ) / 100

theorem floor_le_roundHalfEven (x : ℚ) : ⌊x⌋ ≤ roundHalfEven x := by
  unfold roundHalfEven
  split_ifs <;> omega

theorem roundHalfEven_le_ceil (x : ℚ) : roundHalfEven x ≤ ⌈x⌉ := by
  have hfc : ⌊x⌋ ≤ ⌈x⌉ := Int.floor_le_ceil x
  have key : 1/2 ≤ x - ⌊x⌋ → ⌊x⌋ + 1 ≤ ⌈x⌉ := by
    intro h
    have hx : (⌊x⌋ : ℚ) < x := by linarith
    have : ⌊x⌋ < ⌈x⌉ := Int.lt_ceil.mpr hx
    omega
  unfold roundHalfEven
  split_ifs with h1 h2 h3
  · exact hfc
  · exact key (le_of_lt h2)
  · exact hfc
  · exact key (by linarith)

theorem roundHalfEven_mono {x y : ℚ} (h : x ≤ y) :
    roundHalfEven x ≤ roundHalfEven y := by
  rcases lt_or_le ⌊x⌋ ⌊y⌋ with hf | hf
  · calc roundHalfEven x ≤ ⌈x⌉ := roundHalfEven_le_ceil x
      _ ≤ ⌊x⌋ + 1 := Int.ceil_le_floor_add_one x
      _ ≤ ⌊y⌋ := by omega
      _ ≤ roundHalfEven y := floor_le_roundHalfEven y
  · have hxy : ⌊x⌋ ≤ ⌊y⌋ := Int.floor_mono h
    have hfe : ⌊x⌋ = ⌊y⌋ := le_antisymm hxy hf
    have hr : x - ⌊x⌋ ≤ y - ⌊y⌋ := by rw [← hfe]; linarith
    unfold roundHalfEven
    rw [← hfe]
    split_ifs <;> first | omega | linarith

theorem roundHalfEven_intCast (n : ℤ) : roundHalfEven (n : ℚ) = n := by
  unfold roundHalfEven
  rw [Int.floor_intCast]
  norm_num

/-- Evaluates `round2` at an exact two-decimal rational. -/
theorem round2_eq_of_mul_eq {q : ℚ} {n : ℤ} (h : 100 * q = (n : ℚ)) :
    round2 q = (n : ℚ) / 100 := by
  rw [round2, h, roundHalfEven_intCast]

theorem round2_mono {x y : ℚ} (h : x ≤ y) : round2 x ≤ round2 y := by
  unfold round2
  have : roundHalfEven (100 * x) ≤ roundHalfEven (100 * y) :=
    roundHalfEven_mono (by linarith)
  have hc : ((roundHalfEven (100 * x) : ℤ) : ℚ) ≤ ((roundHalfEven (100 * y) : ℤ) : ℚ) := by
    exact_mod_cast this
  linarith

theorem round2_le_nine_tenths {x : ℚ} (h : x ≤ 9/10) : round2 x ≤ 9/10 := by
  have h1 : roundHalfEven (100 * x) ≤ ⌈(100 * x : ℚ)⌉ := roundHalfEven_le_ceil _
  have h2 : ⌈(100 * x : ℚ)⌉ ≤ 90 := Int.ceil_le.mpr (by push_cast; linarith)
  have h3 : ((roundHalfEven (100 * x) : ℤ) : ℚ) ≤ 90 := by exact_mod_cast h1.trans h2
  unfold round2
  linarith

theorem round2_nonneg {x : ℚ} (h : 0 ≤ x) : 0 ≤ round2 x := by
  have h1 : (0 : ℤ) ≤ ⌊(100 * x : ℚ)⌋ := Int.le_floor.mpr (by push_cast; linarith)
  have h2 : (0 : ℤ) ≤ roundHalfEven (100 * x) := h1.trans (floor_le_roundHalfEven _)
  have h3 : (0 : ℚ) ≤ ((roundHalfEven (100 * x) : ℤ) : ℚ) := by exact_mod_cast h2
  unfold round2
  linarith

theorem round2_one : round2 1 = 1 := by
  have := round2_eq_of_mul_eq (q := 1) (n := 100) (by norm_num)
  rw [this]; norm_num

/-! ### String machinery

Python string primitives are modelled on `List Char` by structural recursion
(`str.lower`, `str.strip`, the `in` substring test, `str.join`).  The sources
only ever apply them to ASCII text, where `Char.toLower` and
`Char.isWhitespace` agree with the Python semantics.
-/

/-- Python `str.lower` (ASCII). -/
def lowerStr (s : String) : String := String.mk (s.data.map Char.toLower)

/-- Substring test on character lists: some suffix of `hay` starts with
`needle`. -/
def containsList : List Char → List Char → Bool
  | [], needle => needle.isEmpty
  | c :: rest, needle => needle.isPrefixOf (c :: rest) || containsList rest needle

/-- Python `needle in hay` substring test. -/
def strContains (hay needle : String) : Bool := containsList hay.data needle.data

/-- Python `sep.join(parts)`. -/
def joinWith (sep : String) : List String → String
  | [] => ""
  | [s] => s
  | s :: rest => s ++ sep ++ joinWith sep rest

/-- Python `str.strip()` (ASCII whitespace). -/
def strTrim (s : String) : String :=
  String.mk (((s.data.dropWhile Char.isWhitespace).reverse.dropWhile
    Char.isWhitespace).reverse)

/-- Two-digit zero padding for `format2`. -/
def pad2 (n : Nat) : String := if n < 10 then "0" ++ toString n else toString n

/-- Python `f"{x:.2f}"` fixed-point formatting with two decimals. -/
def format2 (x : ℚ) : String :=
  let n := roundHalfEven (100 * x)
  let s := toString (n.natAbs / 100) ++ "." ++ pad2 (n.natAbs % 100)
  if n < 0 then "-" ++ s else s

/-! ### Data model

Mirrors the pydantic models in `backend/app/models/request.py`.  The route
guarantees (through pydantic validation) `max_turns ∈ [1, 50]`,
`current_turn ≥ 0`, `progress ∈ [0, 1]`, `min_confidence ∈ [0, 1]`; the tool
functions themselves accept arbitrary dictionaries, so the embedded tool
functions place no such restriction.
-/

structure Goal where
  description : String
  max_turns : ℤ

structure GoalState where
  active : Bool
  current_turn : ℤ
  progress : ℚ

structure SafetyConstraints where
  min_confidence : ℚ
  escalation_keywords : List String
  stop_if_confused : Bool

structure SafetyVerdict where
  decision : String
  reason : String
  triggers : List String

structure Message where
  role : String
  content : String
  timestamp : ℤ

/-! ### goal_tools.py -/

/-- The only failure `track_goal_progress` can actually raise: the Python
`ZeroDivisionError` from `new_turn / max_turns` when `max_turns == 0`.
There is no `InvalidGoalError` anywhere in the source. -/
inductive TrackErr
  | zeroDivision
deriving DecidableEq

/-- Embeds `track_goal_progress(goal, current_state, latest_action)` from
`backend/app/agents/tools/goal_tools.py`.  The division `new_turn / max_turns`
is executed before the `"resolved"` test, so `max_turns == 0` raises
`ZeroDivisionError` on every path; any other `max_turns` (negative included)
returns normally.  The `active` flag is computed from the unrounded progress;
the returned `progress` is rounded to two decimals. -/
def track_goal_progress (goal : Goal) (current_state : GoalState)
    (latest_action : String) : Except TrackErr GoalState :=
  let new_turn := current_state.current_turn + 1
  let max_turns := goal.max_turns
  if max_turns = 0 then .error .zeroDivision
  else
    let base_progress := min ((new_turn : ℚ) / (max_turns : ℚ)) (9/10)
    let progress :=
      if strContains (lowerStr latest_action) "resolved" then (1 : ℚ)
      else base_progress
    .ok { active := decide (progress < 1) && decide (new_turn < max_turns)
          current_turn := new_turn
          progress := round2 progress }

theorem track_goal_progress_eq (goal : Goal) (st : GoalState) (a : String)
    (h : goal.max_turns ≠ 0) :
    track_goal_progress goal st a =
      .ok { active :=
              decide ((if strContains (lowerStr a) "resolved" then (1 : ℚ)
                  else min ((st.current_turn + 1 : ℤ) / (goal.max_turns : ℚ))
                    (9/10)) < 1) &&
              decide (st.current_turn + 1 < goal.max_turns)
            current_turn := st.current_turn + 1
            progress :=
              round2 (if strContains (lowerStr a) "resolved" then (1 : ℚ)
                else min ((st.current_turn + 1 : ℤ) / (goal.max_turns : ℚ))
                  (9/10)) } := by
  simp only [track_goal_progress, if_neg h]
  try push_cast
  try rfl

/-! ### safety_tools.py

`check_safety_constraints(message, constraints, confidence)`.  The three
checks of the source body are split into one definition each, appended in
source order; the function is total.
-/

/-- First check: for each escalation keyword, case-insensitive substring
match against the lowered message. -/
def keywordTriggers (message_lower : String) (keywords : List String) :
    List String :=
  keywords.filterMap fun keyword =>
    if strContains message_lower (lowerStr keyword) then
      some ("escalation_keyword:" ++ keyword)
    else none

/-- Second check: confidence threshold. -/
def confidenceTriggers (confidence min_confidence : ℚ) : List String :=
  if confidence < min_confidence then ["low_confidence:" ++ format2 confidence]
  else []

/-- Third check: confusion phrases, only when `stop_if_confused` is set. -/
def confusionTriggers (stop_if_confused : Bool) (message_lower : String) :
    List String :=
  if stop_if_confused &&
      (["i don\x27t understand", "i\x27m not sure"].any fun p =>
        strContains message_lower p) then
    ["confusion_detected"]
  else []

/-- Embeds `check_safety_constraints` from
`backend/app/agents/tools/safety_tools.py`. -/
def check_safety_constraints (message : String)
    (constraints : SafetyConstraints) (confidence : ℚ) : SafetyVerdict :=
  let message_lower := lowerStr message
  let triggers :=
    keywordTriggers message_lower constraints.escalation_keywords ++
      confidenceTriggers confidence constraints.min_confidence ++
      confusionTriggers constraints.stop_if_confused message_lower
  if triggers ≠ [] then
    { decision := "escalate"
      reason := "Safety violations: " ++ joinWith ", " triggers
      triggers := triggers }
  else
    { decision := "safe", reason := "All checks passed", triggers := [] }

/-! ### context_tools.py

`process_conversation_context(messages)`.  The two `re.findall` calls are
hand-compiled into structural scanners over the character list:
  * order numbers: `#\d+` (maximal digit run, non-overlapping, left to right);
  * emails: `\b[A-Za-z0-9._%+-]+@[A-Za-z0-9.-]+\.[A-Z|a-z]{2,}\b` with the
    greedy/backtracking semantics of the `re` engine.  The bar inside
    `[A-Z|a-z]` is a literal class member.  The local part needs no
    backtracking because `@` is not in its class; the domain part backtracks
    from the longest run down, and the final segment from its longest run
    down to two characters, until the closing word boundary holds.
-/

structure ProcessedMessage where
  role : String
  content : String
  timestamp : ℤ
deriving DecidableEq

structure ExtractedEntities where
  order_numbers : List String
  emails : List String
deriving DecidableEq

structure ContextResult where
  processed_messages : List ProcessedMessage
  intent : String
  entities : ExtractedEntities
deriving DecidableEq

/-- The error return `{"error": "Invalid message count"}` of
`process_conversation_context`. -/
inductive ContextErr
  | invalidMessageCount
deriving DecidableEq

/-- Scanner for the findall call with the pattern `#\d+`. -/
def findOrderNumsAux : Nat → List Char → List String
  | 0, _ => []
  | _ + 1, [] => []
  | fuel + 1, c :: rest =>
    if c = '#' ∧ (rest.headD ' ').isDigit then
      String.mk ('#' :: rest.takeWhile Char.isDigit) ::
        findOrderNumsAux fuel (rest.dropWhile Char.isDigit)
    else findOrderNumsAux fuel rest

def findOrderNumbers (s : String) : List String :=
  findOrderNumsAux s.data.length s.data

/-- The class `\w` of the `re` module (ASCII inputs). -/
def isWordChar (c : Char) : Bool := c.isAlpha || c.isDigit || c = '_'

/-- The class `[A-Za-z0-9._%+-]`. -/
def localClass (c : Char) : Bool :=
  c.isAlpha || c.isDigit || c = '.' || c = '_' || c = '%' || c = '+' || c = '-'

/-- The class `[A-Za-z0-9.-]`. -/
def domainClass (c : Char) : Bool := c.isAlpha || c.isDigit || c = '.' || c = '-'

/-- The class `[A-Z|a-z]`: the bar is literal. -/
def tldClass (c : Char) : Bool := c.isAlpha || c = '|'

/-- Word boundary `\b`: exactly one side of the position is a word character (string
edges count as non-word). -/
def isBoundary (prev next : Option Char) : Bool :=
  (prev.elim false isWordChar) != (next.elim false isWordChar)

/-- Match `[A-Z|a-z]{2,}\b` at the head of `cs`: greedy, backtracking from
the longest class run down to two characters until the trailing word
boundary holds.  Returns the number of characters consumed. -/
def tryTld (cs : List Char) : Option Nat :=
  let maxRun := (cs.takeWhile tldClass).length
  ((List.range (maxRun + 1)).reverse.filter fun j => 2 ≤ j).find? fun j =>
    isBoundary ((cs.drop (j - 1)).headD ' ') ((cs.drop j).head?)

/-- Match `[A-Za-z0-9.-]+\.[A-Z|a-z]{2,}\b` at the head of `cs`: the domain
run backtracks from longest to shortest (length at least one), requiring a
literal dot right after the part kept. -/
def tryDomainTld (cs : List Char) : Option Nat :=
  let maxRun := (cs.takeWhile domainClass).length
  ((List.range (maxRun + 1)).reverse.filter fun k => 1 ≤ k).findSome? fun k =>
    if ((cs.drop k).headD ' ') = '.' then
      (tryTld (cs.drop (k + 1))).map fun j => k + 1 + j
    else none

/-- Match the whole email pattern at the head of `cs` (`prev` is the
character before the current position).  The local run is maximal: `@` is
not in the local class, so no shorter run can be followed by `@`. -/
def tryEmail (prev : Option Char) (cs : List Char) : Option Nat :=
  if isBoundary prev cs.head? then
    let l := (cs.takeWhile localClass).length
    if 1 ≤ l then
      if ((cs.drop l).headD ' ') = '@' then
        (tryDomainTld (cs.drop (l + 1))).map fun d => l + 1 + d
      else none
    else none
  else none

/-- Left-to-right, non-overlapping `findall` driver for the email pattern. -/
def findEmailsAux : Nat → Option Char → List Char → List String
  | 0, _, _ => []
  | _ + 1, _, [] => []
  | fuel + 1, prev, c :: rest =>
    match tryEmail prev (c :: rest) with
    | some n =>
      String.mk ((c :: rest).take n) ::
        findEmailsAux fuel ((c :: rest)[n - 1]?) ((c :: rest).drop n)
    | none => findEmailsAux fuel (some c) rest

def findEmails (s : String) : List String :=
  findEmailsAux s.data.length none s.data

/-- The lowered join of the trimmed message contents, over which the intent
keywords are searched (`" ".join(...)` then `.lower()` in the source). -/
def allContentOf (messages : List Message) : String :=
  lowerStr (joinWith " " (messages.map fun m => strTrim m.content))

/-- Embeds `process_conversation_context` from
`backend/app/agents/tools/context_tools.py`.  The source builds `processed`
and the two entity lists in one loop; entity accumulation in message order
is the same as the per-message concatenation used here. -/
def process_conversation_context (messages : List Message) :
    Except ContextErr ContextResult :=
  if messages.length = 0 ∨ 50 < messages.length then
    .error .invalidMessageCount
  else
    let processed := messages.map fun msg =>
      { role := msg.role, content := strTrim msg.content
        timestamp := msg.timestamp : ProcessedMessage }
    let entities : ExtractedEntities :=
      { order_numbers := (processed.map fun m => findOrderNumbers m.content).flatten
        emails := (processed.map fun m => findEmails m.content).flatten }
    let all_content := lowerStr (joinWith " " (processed.map fun m => m.content))
    let intent :=
      if ["order", "shipping", "delivery"].any (fun w => strContains all_content w) then
        "order_inquiry"
      else if ["refund", "return", "cancel"].any (fun w => strContains all_content w) then
        "refund_request"
      else "general_inquiry"
    .ok { processed_messages := processed, intent := intent, entities := entities }

/-! ### autonomous_agent.py and the route -/

structure AutonomousRequest where
  goal : Goal
  goal_state : GoalState
  safety_constraints : SafetyConstraints
  conversation_context : List Message

structure AutonomousResponse where
  action : String
  response_text : Option String
  updated_state : GoalState
  reasoning : String
  confidence : ℚ

/-- The hardcoded candidate reply of the placeholder implementation in
`AutonomousAgentService.process`. -/
def placeholder_response_text : String :=
  "I\x27m here to help resolve your issue. Let me gather some information."

/-- Embeds `AutonomousAgentService.process` from
`backend/app/agents/autonomous_agent.py`.  The prompt string is built but
never used (the ADK agent invocation is a TODO); the candidate reply is the
fixed placeholder and the confidence the fixed `0.8`.  The safety verdict
decides between `escalate` (reply discarded) and `respond`; the goal state
is then updated exactly once with the chosen action.  The `metadata` field
(uuid, wall-clock time) is outside the model.  No branch ever produces
`goal_complete`. -/
def AutonomousAgentService.process (request : AutonomousRequest) :
    Except TrackErr AutonomousResponse :=
  let safety_result :=
    check_safety_constraints placeholder_response_text
      request.safety_constraints (8/10)
  let ar : String × Option String :=
    if safety_result.decision = "escalate" then ("escalate", none)
    else ("respond", some placeholder_response_text)
  (track_goal_progress request.goal request.goal_state ar.1).map
    fun updated_state =>
      { action := ar.1
        response_text := ar.2
        updated_state := updated_state
        reasoning := "Decision based on goal and safety analysis: " ++
          safety_result.reason
        confidence := 8/10 }

/-- The rejection paths of the `/autonomous-response` route.  `internal`
stands for the generic 500 wrapper around exceptions escaping the agent. -/
inductive RouteErr
  | goalDescriptionRequired
  | safetyConstraintsRequired
  | turnLimitExceeded
  | internal (e : TrackErr)
deriving DecidableEq

/-- Embeds `autonomous_response` from `backend/app/api/routes/autonomous.py`.
Pydantic model instances are always truthy, so of the two presence checks
(`not request.goal or not request.goal.description`,
`not request.safety_constraints`) only the empty-description test can fire,
and it fires before the turn-limit test. -/
def autonomous_response (request : AutonomousRequest) :
    Except RouteErr AutonomousResponse :=
  if request.goal.description = "" then .error .goalDescriptionRequired
  else if request.goal.max_turns ≤ request.goal_state.current_turn then
    .error .turnLimitExceeded
  else (AutonomousAgentService.process request).mapError .internal

/-! ### Shared helper lemmas -/

instance instDecidableEqExcept {ε α : Type} [DecidableEq ε] [DecidableEq α] :
    DecidableEq (Except ε α)
  | .error e, .error f =>
    if h : e = f then .isTrue (by rw [h]) else .isFalse (by simp [h])
  | .error _, .ok _ => .isFalse (by simp)
  | .ok _, .error _ => .isFalse (by simp)
  | .ok x, .ok y =>
    if h : x = y then .isTrue (by rw [h]) else .isFalse (by simp [h])

theorem div_mono_of_pos {t m : ℤ} (hm : 0 < m) :
    ((t : ℚ) / (m : ℚ)) ≤ ((t + 1 : ℤ) : ℚ) / (m : ℚ) := by
  have hm' : (0 : ℚ) < (m : ℚ) := by exact_mod_cast hm
  have hnum : (t : ℚ) ≤ ((t + 1 : ℤ) : ℚ) := by push_cast; linarith
  exact div_le_div_of_nonneg_right hnum hm'.le

/-- The `"resolved"` branch test evaluated on the two fixed action strings
the autonomous agent can pass to the tracker. -/
theorem resolved_not_in_respond :
    strContains (lowerStr "respond") "resolved" = false := by decide

theorem resolved_not_in_escalate :
    strContains (lowerStr "escalate") "resolved" = false := by decide

/-! ### Claims about GoalTracker (C2, C3, C8, C10) -/

/-- C2, counterexample: The claim quantifies over every valid
`GoalState` (`progress` anywhere in `[0,1]`), but `track_goal_progress`
recomputes progress purely from the new turn count: from the valid state
`{active: true, current_turn: 0, progress: 0.5}` with `max_turns = 10` and a
neutral action, the returned progress is `0.1 < 0.5`. -/
theorem C2_counterexample :
    track_goal_progress ⟨"g", 10⟩ ⟨true, 0, 1/2⟩ "hello" = .ok ⟨true, 1, 1/10⟩ ∧
      ((1 : ℚ)/10 < 1/2) := by
  refine ⟨?_, by norm_num⟩
  rw [track_goal_progress_eq _ _ _ (by norm_num)]
  have hc : strContains (lowerStr "hello") "resolved" = false := by decide
  rw [hc]
  have hmin : min (((0 : ℤ) + 1 : ℤ) / ((10 : ℤ) : ℚ)) (9/10) = 1/10 := by
    norm_num [min_def]
  simp only [Bool.false_eq_true, if_false, hmin]
  have hr : round2 (1/10) = 1/10 := by
    rw [round2_eq_of_mul_eq (n := 10) (by norm_num)]; norm_num
  rw [hr]
  have hd1 : decide ((1 : ℚ)/10 < 1) = true := decide_eq_true (by norm_num)
  have hd2 : decide ((0 : ℤ) + 1 < 10) = true := decide_eq_true (by norm_num)
  norm_num [hd1, hd2]

/-- C2, amended: For every goal with `max_turns ≥ 1` and every valid
state, `track_goal_progress` succeeds and advances `current_turn` by
exactly one — unconditionally; the returned progress is moreover at least
the input progress whenever the input progress does not exceed the
two-decimal baseline the tracker itself computes for the current turn —
the invariant every tracker-produced state and the initial state
`{current_turn: 0, progress: 0}` satisfy.  (Unrestricted monotonicity is
refuted by `C2_counterexample`.) -/
theorem C2_advance (goal : Goal) (st : GoalState) (action : String)
    (hm : 1 ≤ goal.max_turns) (ht : 0 ≤ st.current_turn)
    (hp0 : 0 ≤ st.progress) (hp1 : st.progress ≤ 1) :
    (∃ s', track_goal_progress goal st action = .ok s' ∧
      s'.current_turn = st.current_turn + 1) ∧
    (st.progress ≤
        round2 (min ((st.current_turn : ℚ) / (goal.max_turns : ℚ)) (9/10)) →
      ∃ s', track_goal_progress goal st action = .ok s' ∧
        s'.current_turn = st.current_turn + 1 ∧ st.progress ≤ s'.progress) := by
  constructor
  · exact ⟨_, track_goal_progress_eq goal st action (by omega), rfl⟩
  · intro hinv
    refine ⟨_, track_goal_progress_eq goal st action (by omega), rfl, ?_⟩
    by_cases hres : strContains (lowerStr action) "resolved" = true
    · simp only [hres, if_true]
      rw [round2_one]
      exact hp1
    · rw [Bool.not_eq_true] at hres
      simp only [hres, Bool.false_eq_true, if_false]
      refine hinv.trans (round2_mono (min_le_min ?_ le_rfl))
      exact div_mono_of_pos (by omega)

/-- Witness for `C2_advance` at `max_turns = 10`,
`state = {active: true, current_turn: 3, progress: 0.3}`, action `"hi"`:
the unconditional turn increment, and the progress bound after
discharging the baseline implication. -/
theorem C2_advance_witness :
    (1 : ℤ) ≤ 10 ∧ (0 : ℤ) ≤ 3 ∧ (0 : ℚ) ≤ 3/10 ∧ (3/10 : ℚ) ≤ 1 ∧
      (∃ s', track_goal_progress ⟨"g", 10⟩ ⟨true, 3, 3/10⟩ "hi" = .ok s' ∧
        s'.current_turn = 3 + 1) ∧
      ∃ s', track_goal_progress ⟨"g", 10⟩ ⟨true, 3, 3/10⟩ "hi" = .ok s' ∧
        s'.current_turn = 3 + 1 ∧ (3/10 : ℚ) ≤ s'.progress := by
  have hinv : (3/10 : ℚ) ≤
      round2 (min (((3 : ℤ) : ℚ) / ((10 : ℤ) : ℚ)) (9/10)) := by
    have hmin : min (((3 : ℤ) : ℚ) / ((10 : ℤ) : ℚ)) (9/10) = 3/10 := by
      norm_num [min_def]
    rw [hmin, round2_eq_of_mul_eq (n := 30) (by norm_num)]
    norm_num
  have h := C2_advance ⟨"g", 10⟩ ⟨true, 3, 3/10⟩ "hi" (by norm_num)
    (by norm_num) (by norm_num) (by norm_num)
  exact ⟨by norm_num, by norm_num, by norm_num, by norm_num, h.1, h.2 hinv⟩

/-- C3, code bug: The source has no `InvalidGoalError` guard at all:
with `max_turns = 0` the division `new_turn / max_turns` raises the very
`ZeroDivisionError` the claim forbids, and with a negative `max_turns`
(here `-1`) the tracker does not fail — it silently returns a state with
negative progress. -/
theorem C3_no_invalid_goal_guard :
    track_goal_progress ⟨"g", 0⟩ ⟨true, 0, 0⟩ "respond" =
        .error .zeroDivision ∧
      track_goal_progress ⟨"g", -1⟩ ⟨true, 0, 0⟩ "respond" =
        .ok ⟨false, 1, -1⟩ := by
  constructor
  · simp [track_goal_progress]
  · rw [track_goal_progress_eq _ _ _ (by norm_num)]
    rw [resolved_not_in_respond]
    have hmin : min (((0 : ℤ) + 1 : ℤ) / (((-1 : ℤ)) : ℚ)) (9/10) = -1 := by
      norm_num [min_def]
    simp only [Bool.false_eq_true, if_false, hmin]
    have hr : round2 (-1) = -1 := by
      rw [round2_eq_of_mul_eq (n := -100) (by norm_num)]; norm_num
    rw [hr]
    have hd1 : decide ((-1 : ℚ) < 1) = true := decide_eq_true (by norm_num)
    have hd2 : decide ((0 : ℤ) + 1 < -1) = false := decide_eq_false (by norm_num)
    norm_num [hd1, hd2]

/-- C8: For every goal with `max_turns ≥ 1`, the returned `active` flag
is true exactly when the returned progress is below `1.0` and the new turn
count is below `max_turns`; and the concrete instance from the spec
`advance({max_turns:10}, {current_turn:9, progress:0.81}, "respond")`
returns `{active: false, current_turn: 10, progress: 0.9}`. -/
theorem C8_active_iff :
    (∀ (goal : Goal) (st : GoalState) (action : String),
      1 ≤ goal.max_turns →
        ∃ s', track_goal_progress goal st action = .ok s' ∧
          (s'.active = true ↔
            s'.progress < 1 ∧ s'.current_turn < goal.max_turns)) ∧
    track_goal_progress ⟨"d", 10⟩ ⟨true, 9, 81/100⟩ "respond" =
      .ok ⟨false, 10, 9/10⟩ := by
  constructor
  · intro goal st action hm
    refine ⟨_, track_goal_progress_eq goal st action (by omega), ?_⟩
    simp only [Bool.and_eq_true, decide_eq_true_eq]
    by_cases hres : strContains (lowerStr action) "resolved" = true
    · simp only [hres, if_true, round2_one]
    · rw [Bool.not_eq_true] at hres
      simp only [hres, Bool.false_eq_true, if_false]
      have hlt : min (((st.current_turn + 1 : ℤ)) / ((goal.max_turns : ℤ) : ℚ))
          (9/10) < 1 := lt_of_le_of_lt (min_le_right _ _) (by norm_num)
      have hlt2 : round2 (min (((st.current_turn + 1 : ℤ)) /
          ((goal.max_turns : ℤ) : ℚ)) (9/10)) < 1 :=
        lt_of_le_of_lt (round2_le_nine_tenths (min_le_right _ _)) (by norm_num)
      constructor
      · rintro ⟨-, h2⟩; exact ⟨hlt2, h2⟩
      · rintro ⟨-, h2⟩; exact ⟨hlt, h2⟩
  · rw [track_goal_progress_eq _ _ _ (by norm_num)]
    rw [resolved_not_in_respond]
    have hmin : min (((9 : ℤ) + 1 : ℤ) / ((10 : ℤ) : ℚ)) (9/10) = 9/10 := by
      norm_num [min_def]
    simp only [Bool.false_eq_true, if_false, hmin]
    have hr : round2 (9/10) = 9/10 := by
      rw [round2_eq_of_mul_eq (n := 90) (by norm_num)]; norm_num
    rw [hr]
    have hd1 : decide ((9 : ℚ)/10 < 1) = true := decide_eq_true (by norm_num)
    have hd2 : decide ((9 : ℤ) + 1 < 10) = false := decide_eq_false (by norm_num)
    norm_num [hd1, hd2]

/-- Witness for the quantified part of `C8_active_iff`. -/
theorem C8_active_iff_witness :
    (1 : ℤ) ≤ 10 ∧
      ∃ s', track_goal_progress ⟨"d", 10⟩ ⟨true, 0, 0⟩ "hi" = .ok s' ∧
        (s'.active = true ↔ s'.progress < 1 ∧ s'.current_turn < 10) :=
  ⟨by norm_num, C8_active_iff.1 ⟨"d", 10⟩ ⟨true, 0, 0⟩ "hi" (by norm_num)⟩

/-- C10: For every goal with `max_turns ≥ 1` and valid state, the
returned progress is `1.0` exactly when the action contains `"resolved"`
(case-insensitively), and otherwise lies in `[0, 0.9]`; a value strictly
between `0.9` and `1.0` is impossible. -/
theorem C10_progress_range (goal : Goal) (st : GoalState) (action : String)
    (hm : 1 ≤ goal.max_turns) (ht : 0 ≤ st.current_turn) :
    ∃ s', track_goal_progress goal st action = .ok s' ∧
      (s'.progress = 1 ↔ strContains (lowerStr action) "resolved" = true) ∧
      (strContains (lowerStr action) "resolved" = false →
        0 ≤ s'.progress ∧ s'.progress ≤ 9/10) := by
  refine ⟨_, track_goal_progress_eq goal st action (by omega), ?_, ?_⟩
  · by_cases hres : strContains (lowerStr action) "resolved" = true
    · simp only [hres, if_true, round2_one]
    · rw [Bool.not_eq_true] at hres
      simp only [hres, Bool.false_eq_true, if_false]
      have hle : round2 (min (((st.current_turn + 1 : ℤ)) /
          ((goal.max_turns : ℤ) : ℚ)) (9/10)) ≤ 9/10 :=
        round2_le_nine_tenths (min_le_right _ _)
      constructor
      · intro h; exfalso; rw [h] at hle; norm_num at hle
      · intro h; exact absurd h (by simp)
  · intro hres
    simp only [hres, Bool.false_eq_true, if_false]
    constructor
    · apply round2_nonneg
      have h1 : (0 : ℚ) < ((st.current_turn + 1 : ℤ) : ℚ) := by
        push_cast; have : (0 : ℚ) ≤ (st.current_turn : ℚ) := by exact_mod_cast ht
        linarith
      have h2 : (0 : ℚ) < ((goal.max_turns : ℤ) : ℚ) := by
        exact_mod_cast lt_of_lt_of_le Int.zero_lt_one hm
      exact le_min (le_of_lt (div_pos h1 h2)) (by norm_num)
    · exact round2_le_nine_tenths (min_le_right _ _)

/-! ### Claims about SafetyEvaluator (C4) -/

/-- C4: `check_safety_constraints` is total; its trigger list is the
concatenation of the three unconditionally evaluated checks (escalation
keywords, confidence threshold, confusion phrases, in source order); the
decision is `escalate` exactly when that list is non-empty, in which case
the reason is the triggers joined with `", "` behind
`"Safety violations: "`, and otherwise the decision is `safe` with reason
`"All checks passed"`. -/
theorem C4_evaluate_contract (message : String)
    (constraints : SafetyConstraints) (confidence : ℚ) :
    (check_safety_constraints message constraints confidence).triggers =
        keywordTriggers (lowerStr message) constraints.escalation_keywords ++
          confidenceTriggers confidence constraints.min_confidence ++
          confusionTriggers constraints.stop_if_confused (lowerStr message) ∧
      ((check_safety_constraints message constraints confidence).decision =
          "escalate" ↔
        (check_safety_constraints message constraints confidence).triggers ≠ []) ∧
      (check_safety_constraints message constraints confidence).decision =
        (if (check_safety_constraints message constraints confidence).triggers = []
          then "safe" else "escalate") ∧
      (check_safety_constraints message constraints confidence).reason =
        (if (check_safety_constraints message constraints confidence).triggers = []
          then "All checks passed"
          else "Safety violations: " ++ joinWith ", "
            (check_safety_constraints message constraints confidence).triggers) := by
  simp only [check_safety_constraints]
  split_ifs with h1 h2
  · exact ⟨rfl, iff_of_true rfl h1, rfl, rfl⟩
  · exact ⟨(not_not.mp h1).symm, iff_of_false (by decide) (not_not_intro rfl), rfl, rfl⟩
  · exact absurd rfl h2

/-! ### Claims about ContextProcessor (C5, C9) -/

/-- C5: `process_conversation_context` succeeds exactly on sequences of
1 to 50 messages and returns the invalid-message-count failure exactly when
the sequence is empty or longer than 50. -/
theorem C5_message_count (messages : List Message) :
    ((∃ r, process_conversation_context messages = .ok r) ↔
        1 ≤ messages.length ∧ messages.length ≤ 50) ∧
      (process_conversation_context messages = .error .invalidMessageCount ↔
        messages.length = 0 ∨ 50 < messages.length) := by
  unfold process_conversation_context
  split_ifs with h
  · constructor
    · simp only [reduceCtorEq, exists_false, false_iff]
      omega
    · simp only [true_iff]
      exact h
  · constructor
    · simp only [Except.ok.injEq, exists_eq', true_iff]
      omega
    · simp only [reduceCtorEq, false_iff]
      omega

/-- C9: Intent classification is first-match-wins over the lowered
join of the trimmed message contents, in the fixed priority order
order/shipping/delivery → refund/return/cancel → general; and on the single
message `"Order #4521, email me at a@b.com"` the extracted order numbers are
`["#4521"]`, the emails `["a@b.com"]`, and the intent `"order_inquiry"`. -/
theorem C9_intent_classification :
    (∀ (messages : List Message) (r : ContextResult),
      process_conversation_context messages = .ok r →
        r.intent =
          (if ["order", "shipping", "delivery"].any
              (fun w => strContains (allContentOf messages) w) then
            "order_inquiry"
          else if ["refund", "return", "cancel"].any
              (fun w => strContains (allContentOf messages) w) then
            "refund_request"
          else "general_inquiry")) ∧
    process_conversation_context
        [⟨"customer", "Order #4521, email me at a@b.com", 1⟩] =
      .ok { processed_messages :=
              [⟨"customer", "Order #4521, email me at a@b.com", 1⟩]
            intent := "order_inquiry"
            entities := { order_numbers := ["#4521"], emails := ["a@b.com"] } } := by
  constructor
  · intro messages r h
    unfold process_conversation_context at h
    split_ifs at h
    injection h with h
    subst h
    simp only [allContentOf, List.map_map]
    rfl
  · decide

/-- Witness for the quantified part of `C9_intent_classification`, obtained
by applying it to its own concrete instance. -/
theorem C9_intent_classification_witness :
    process_conversation_context
        [⟨"customer", "Order #4521, email me at a@b.com", 1⟩] =
      .ok { processed_messages :=
              [⟨"customer", "Order #4521, email me at a@b.com", 1⟩]
            intent := "order_inquiry"
            entities := { order_numbers := ["#4521"], emails := ["a@b.com"] } } ∧
    ({ processed_messages :=
          [⟨"customer", "Order #4521, email me at a@b.com", 1⟩]
       intent := "order_inquiry"
       entities := { order_numbers := ["#4521"], emails := ["a@b.com"] }
       : ContextResult }).intent =
      (if ["order", "shipping", "delivery"].any
          (fun w => strContains
            (allContentOf [⟨"customer", "Order #4521, email me at a@b.com", 1⟩]) w) then
        "order_inquiry"
      else if ["refund", "return", "cancel"].any
          (fun w => strContains
            (allContentOf [⟨"customer", "Order #4521, email me at a@b.com", 1⟩]) w) then
        "refund_request"
      else "general_inquiry") :=
  ⟨C9_intent_classification.2,
    C9_intent_classification.1 _ _ C9_intent_classification.2⟩

/-- Witness for `C10_progress_range` on the action `"issue resolved"`. -/
theorem C10_progress_range_witness :
    (1 : ℤ) ≤ 4 ∧ (0 : ℤ) ≤ 1 ∧
      ∃ s', track_goal_progress ⟨"g", 4⟩ ⟨true, 1, 0⟩ "issue resolved" = .ok s' ∧
        (s'.progress = 1 ↔
          strContains (lowerStr "issue resolved") "resolved" = true) ∧
        (strContains (lowerStr "issue resolved") "resolved" = false →
          0 ≤ s'.progress ∧ s'.progress ≤ 9/10) :=
  ⟨by norm_num, by norm_num,
    C10_progress_range ⟨"g", 4⟩ ⟨true, 1, 0⟩ "issue resolved"
      (by norm_num) (by norm_num)⟩

/-! ### Claims about the autonomous policy and route (C1, C6, C7) -/

/-- A request whose constraints pass on the placeholder reply (the keyword
`"lawsuit"` does not occur in it, the fixed confidence `0.8` meets the
`0.7` threshold, and no confusion phrase occurs), with `max_turns = 1` so
the updated state deactivates on this very turn. -/
def requestDeactivatingSafeTurn : AutonomousRequest :=
  ⟨⟨"Resolve the shipping issue", 1⟩, ⟨true, 0, 0⟩, ⟨7/10, ["lawsuit"], true⟩,
    [⟨"customer", "Where is my package?", 1⟩]⟩

theorem safe_verdict_on_placeholder :
    check_safety_constraints placeholder_response_text
        ⟨7/10, ["lawsuit"], true⟩ (8/10) =
      ⟨"safe", "All checks passed", []⟩ := by
  have h1 : keywordTriggers (lowerStr placeholder_response_text) ["lawsuit"] = [] := by
    decide
  have h2 : confidenceTriggers (8/10) (7/10) = [] := by
    rw [confidenceTriggers, if_neg]; norm_num
  have h3 : confusionTriggers true (lowerStr placeholder_response_text) = [] := by
    decide
  simp [check_safety_constraints, h1, h2, h3]

/-- C1, code bug: The placeholder implementation of
`AutonomousAgentService.process` never emits `goal_complete`: on a turn
whose safety verdict is safe and whose updated goal state comes back with
`active = false` (turn ceiling reached), the emitted action is still
`respond`, not the `goal_complete` the claim requires. -/
theorem C1_goal_complete_never_emitted :
    (AutonomousAgentService.process requestDeactivatingSafeTurn).map
        (fun r => (r.action, r.response_text, r.updated_state.active)) =
      .ok ("respond", some placeholder_response_text, false) := by
  simp only [AutonomousAgentService.process, requestDeactivatingSafeTurn,
    safe_verdict_on_placeholder]
  split_ifs with h
  · exact absurd h (by decide)
  · rw [track_goal_progress_eq _ _ _ (by norm_num)]
    rw [resolved_not_in_respond]
    have hmin : min (((0 : ℤ) + 1 : ℤ) / ((1 : ℤ) : ℚ)) (9/10) = 9/10 := by
      norm_num [min_def]
    simp only [Bool.false_eq_true, if_false, hmin]
    have hd1 : decide ((9 : ℚ)/10 < 1) = true := decide_eq_true (by norm_num)
    have hd2 : decide ((0 : ℤ) + 1 < 1) = false := decide_eq_false (by norm_num)
    simp [Except.map, hd1, hd2]

/-- A request that is over budget (`current_turn = 7 ≥ max_turns = 5`) but
whose goal description is empty, so the route rejects it with the
goal-description error, not the turn-limit error. -/
def requestEmptyDescriptionOverBudget : AutonomousRequest :=
  ⟨⟨"", 5⟩, ⟨true, 7, 0⟩, ⟨7/10, [], true⟩, [⟨"customer", "Hi", 1⟩]⟩

/-- C6, counterexample: Not every over-budget invocation is rejected
with the turn-limit error: the route checks the goal description first, so
an over-budget request with an empty description (pydantic places no
minimum length on `description`) is rejected with
`goalDescriptionRequired` instead. -/
theorem C6_counterexample :
    autonomous_response requestEmptyDescriptionOverBudget =
        .error .goalDescriptionRequired ∧
      requestEmptyDescriptionOverBudget.goal.max_turns ≤
        requestEmptyDescriptionOverBudget.goal_state.current_turn ∧
      autonomous_response requestEmptyDescriptionOverBudget ≠
        .error .turnLimitExceeded := by
  refine ⟨?_, by decide, ?_⟩
  · simp [autonomous_response, requestEmptyDescriptionOverBudget]
  · simp [autonomous_response, requestEmptyDescriptionOverBudget]

/-- C6, amended: For every request whose goal description is
non-empty (i.e. that passes the validation performed before the turn-limit
test), the route rejects with the turn-limit error exactly when
`current_turn ≥ max_turns` on entry; and in all such cases processing
proceeds only when `current_turn < max_turns`. -/
theorem C6_turn_limit (request : AutonomousRequest)
    (hd : request.goal.description ≠ "") :
    (autonomous_response request = .error .turnLimitExceeded ↔
        request.goal.max_turns ≤ request.goal_state.current_turn) ∧
      (∀ r, autonomous_response request = .ok r →
        request.goal_state.current_turn < request.goal.max_turns) := by
  simp only [autonomous_response, if_neg hd]
  by_cases h : request.goal.max_turns ≤ request.goal_state.current_turn
  · rw [if_pos h]
    exact ⟨iff_of_true rfl h, fun r hr => by simp at hr⟩
  · rw [if_neg h]
    constructor
    · constructor
      · intro hco
        exfalso
        cases he : AutonomousAgentService.process request with
        | ok a => rw [he] at hco; simp [Except.mapError] at hco
        | error e => rw [he] at hco; simp [Except.mapError] at hco
      · intro hge; exact absurd hge h
    · intro r _; omega

/-- Witness for `C6_turn_limit` on an over-budget request with a non-empty
description. -/
def requestOverBudget : AutonomousRequest :=
  ⟨⟨"Resolve shipping delay issue", 5⟩, ⟨true, 7, 0⟩, ⟨7/10, [], true⟩,
    [⟨"customer", "Hi", 1⟩]⟩

theorem C6_turn_limit_witness :
    requestOverBudget.goal.description ≠ "" ∧
      ((autonomous_response requestOverBudget = .error .turnLimitExceeded ↔
          requestOverBudget.goal.max_turns ≤
            requestOverBudget.goal_state.current_turn) ∧
        (∀ r, autonomous_response requestOverBudget = .ok r →
          requestOverBudget.goal_state.current_turn <
            requestOverBudget.goal.max_turns)) :=
  ⟨by decide, C6_turn_limit requestOverBudget (by decide)⟩

/-- C7: On every turn whose safety verdict is `escalate` (for a goal
with `max_turns ≥ 1`), the emitted action is `escalate`, the response text
is discarded (`none`), and the goal state is still advanced exactly once —
`current_turn` comes back incremented by one on the escalation branch, just
as the tracker increments it on the respond branch. -/
theorem C7_escalation_branch (request : AutonomousRequest)
    (hm : 1 ≤ request.goal.max_turns)
    (hesc : (check_safety_constraints placeholder_response_text
        request.safety_constraints (8/10)).decision = "escalate") :
    (AutonomousAgentService.process request).map
        (fun r => (r.action, r.response_text, r.updated_state.current_turn)) =
      .ok ("escalate", (none : Option String),
        request.goal_state.current_turn + 1) ∧
      (track_goal_progress request.goal request.goal_state "respond").map
          (fun s => s.current_turn) =
        .ok (request.goal_state.current_turn + 1) := by
  constructor
  · simp only [AutonomousAgentService.process, hesc, eq_self_iff_true, ite_true]
    rw [track_goal_progress_eq _ _ _ (by omega)]
    simp [Except.map]
  · rw [track_goal_progress_eq _ _ _ (by omega)]
    simp [Except.map]

/-- A request whose escalation keyword `"help"` occurs in the placeholder
reply, forcing the escalate verdict. -/
def requestHelpKeyword : AutonomousRequest :=
  ⟨⟨"Resolve the shipping issue", 10⟩, ⟨true, 0, 0⟩, ⟨7/10, ["help"], true⟩,
    [⟨"customer", "Hi", 1⟩]⟩

theorem escalate_verdict_on_placeholder :
    check_safety_constraints placeholder_response_text
        ⟨7/10, ["help"], true⟩ (8/10) =
      ⟨"escalate", "Safety violations: escalation_keyword:help",
        ["escalation_keyword:help"]⟩ := by
  have h1 : keywordTriggers (lowerStr placeholder_response_text) ["help"] =
      ["escalation_keyword:help"] := by decide
  have h2 : confidenceTriggers (8/10) (7/10) = [] := by
    rw [confidenceTriggers, if_neg]; norm_num
  have h3 : confusionTriggers true (lowerStr placeholder_response_text) = [] := by
    decide
  simp only [check_safety_constraints, h1, h2, h3]
  split_ifs with h
  · rfl
  · exact absurd (by decide) h

/-- Witness for `C7_escalation_branch`. -/
theorem C7_escalation_branch_witness :
    (1 : ℤ) ≤ requestHelpKeyword.goal.max_turns ∧
      (check_safety_constraints placeholder_response_text
          requestHelpKeyword.safety_constraints (8/10)).decision = "escalate" ∧
      ((AutonomousAgentService.process requestHelpKeyword).map
          (fun r => (r.action, r.response_text, r.updated_state.current_turn)) =
        .ok ("escalate", (none : Option String),
          requestHelpKeyword.goal_state.current_turn + 1) ∧
        (track_goal_progress requestHelpKeyword.goal
            requestHelpKeyword.goal_state "respond").map
            (fun s => s.current_turn) =
          .ok (requestHelpKeyword.goal_state.current_turn + 1)) :=
  ⟨by decide,
    by simp only [requestHelpKeyword]; rw [escalate_verdict_on_placeholder],
    C7_escalation_branch requestHelpKeyword (by decide)
      (by simp only [requestHelpKeyword]; rw [escalate_verdict_on_placeholder])⟩

end SupportChat
